import Mathlib

/-!
Shallow embedding of the whispr GNOME-shell indicator extension
(`extension.js`): state-file parsing (`_loadOverlayState`, `_loadTrayState`),
staleness normalization, debounced reload scheduling (`_watchState`,
`_scheduleLoadOverlay`, `_scheduleLoadTray`), click disambiguation
(`_handlePrimaryClick`), indicator presentation state (`_updateIndicator`,
`_scheduleStatusRefresh`), and the level meter (`_startMeter`, `_hideOverlay`).

JavaScript numbers are modelled by `JsNum` (an exact rational or one of the
non-finite values); times are exact rationals.  The single-threaded GLib main
loop is modelled by explicit event lists processed in chronological order,
with a due timer firing before any event carrying a later (or equal)
timestamp is handled.
-/

namespace Whispr

/-! ### JavaScript values and parsed JSON documents -/

/-- A JavaScript number: either a finite value (exact rational) or one of
the non-finite values.  `JSON.parse` can produce non-finite numbers from
literals such as `1e999`. -/
inductive JsNum where
  | fin (q : ℚ)
  | inf
  | negInf
  | nan

/-- A parsed JSON value, as returned by `JSON.parse`.  Objects produced by
`JSON.parse` have unique keys (a duplicate key keeps the last occurrence),
so `obj` carries an association list with distinct keys. -/
inductive Json where
  | null
  | bool (b : Bool)
  | num (n : JsNum)
  | str (s : String)
  | arr (elems : List Json)
  | obj (fields : List (String × Json))

/-- Property access `data.k`: `none` models JavaScript `undefined`.
Property access on a primitive yields `undefined`; on `null` it throws,
which the callers catch, producing the same all-default result, so `none`
is a faithful model there as well. -/
def Json.get : Json → String → Option Json
  | .obj fields, k => fields.lookup k
  | _, _ => none

/-- JavaScript truthiness of a possibly-undefined value, as used by
`Boolean(x)` and by `if (x)` / `x && y` guards. -/
def truthy : Option Json → Bool
  | none => false
  | some .null => false
  | some (.bool b) => b
  | some (.num (.fin q)) => q != 0
  | some (.num .inf) => true
  | some (.num .negInf) => true
  | some (.num .nan) => false
  | some (.str s) => s != ""
  | some (.arr _) => true
  | some (.obj _) => true

/-- `Number.isFinite(x)` combined with reading the value: yields the
rational exactly when `x` is a finite number (no coercion of strings). -/
def finiteNum : Option Json → Option ℚ
  | some (.num (.fin q)) => some q
  | _ => none

/-- JavaScript truthiness of a parsed optional-number field
(`null` and `0` are falsy; stored values are always finite). -/
def truthyNum : Option ℚ → Bool
  | none => false
  | some q => q != 0

/-! ### Constants from the source -/

def DOUBLE_CLICK_MS : ℚ := 220
def SUCCESS_FLASH_MS : ℚ := 3000
def ERROR_FLASH_MS : ℚ := 4000
def STALE_STATE_MS : ℚ := 5000
def BAR_COUNT : ℕ := 10
def BAR_MAX_HEIGHT : ℤ := 26
def BAR_MIN_HEIGHT : ℤ := 10
def BAR_WEIGHTS : List ℚ := [0.35, 0.55, 0.8, 1.0, 0.9, 0.9, 1.0, 0.8, 0.55, 0.35]
def STATE_FILE : String := "overlay.json"
/-- `STATE_FILE.replace(/\.json$/i, '.tmp')`. -/
def STATE_TMP_FILE : String := "overlay.tmp"
def TRAY_FILE : String := "tray.json"
/-- `TRAY_FILE.replace(/\.json$/i, '.tmp')`. -/
def TRAY_TMP_FILE : String := "tray.tmp"
/-- Debounce delay of `_scheduleLoadOverlay` (ms). -/
def OVERLAY_DEBOUNCE_MS : ℚ := 60
/-- Debounce delay of `_scheduleLoadTray` (ms). -/
def TRAY_DEBOUNCE_MS : ℚ := 120

/-! ### StateStore: `_loadOverlayState` / `_loadTrayState` parsing -/

/-- The recording-state document as parsed by `_loadOverlayState`. -/
structure OverlayState where
  recording : Bool
  startedAtMs : Option ℚ
  level : ℚ
  updatedAtMs : Option ℚ
deriving DecidableEq

/-- The initial values of `_loadOverlayState`'s locals, which are also the
values restored wholesale by its `catch` block. -/
def defaultOverlayState : OverlayState :=
  { recording := false, startedAtMs := none, level := 0, updatedAtMs := none }

/-- `Math.max(0, Math.min(1, q))`. -/
def clamp01 (q : ℚ) : ℚ := max 0 (min 1 q)

/-- The parsing part of `_loadOverlayState` (lines 315–342).  The input is
`none` when the read or `JSON.parse` raised (missing file, malformed JSON,
or a top-level `null`, whose property access throws); otherwise it is the
parsed document. -/
def parseOverlay : Option Json → OverlayState
  | none => defaultOverlayState
  | some data =>
      { recording := truthy (data.get "recording")
        startedAtMs := finiteNum (data.get "started_at_ms")
        level :=
          match finiteNum (data.get "level") with
          | some q => clamp01 q
          | none => 0
        updatedAtMs := finiteNum (data.get "updated_at_ms") }

/-- The staleness correction of `_loadOverlayState` (lines 344–350):
`if (recording && updatedAtMs && Date.now() - updatedAtMs > STALE_STATE_MS)`.
Note that the second conjunct is JavaScript truthiness, so an absent *or
zero* `updatedAtMs` skips the correction. -/
def normalizeOverlay (now : ℚ) (s : OverlayState) : OverlayState :=
  match s.updatedAtMs with
  | some u =>
      if s.recording = true ∧ u ≠ 0 ∧ now - u > STALE_STATE_MS then
        { s with recording := false, startedAtMs := none, level := 0 }
      else s
  | none => s

/-- The full pure content of `_loadOverlayState`: parse, then staleness
correction at wall-clock time `now`. -/
def loadOverlayState (now : ℚ) (input : Option Json) : OverlayState :=
  normalizeOverlay now (parseOverlay input)

/-- The tray/history document as parsed by `_loadTrayState`.  `recent`
items are kept raw (they are validated later in `_refreshMenu`), and
`hotkeys` is kept as the raw JSON value accepted by the
`data.hotkeys && typeof data.hotkeys === 'object'` guard. -/
structure TrayState where
  trayRecent : List Json
  lastTranscriptAtMs : Option ℚ
  lastErrorAtMs : Option ℚ
  lastError : Option String
  hotkeys : Json

/-- The initial values of `_loadTrayState`'s locals, also restored by its
`catch` block. -/
def defaultTrayState : TrayState :=
  { trayRecent := [], lastTranscriptAtMs := none, lastErrorAtMs := none
    lastError := none, hotkeys := .obj [] }

/-- `typeof v === 'object'` (true for objects, arrays and `null`). -/
def typeofObject : Json → Bool
  | .null => true
  | .arr _ => true
  | .obj _ => true
  | _ => false

/-- The parsing part of `_loadTrayState` (lines 548–582); `none` input
models a read/parse failure, as for `parseOverlay`. -/
def parseTray : Option Json → TrayState
  | none => defaultTrayState
  | some data =>
      { trayRecent :=
          match data.get "recent" with
          | some (.arr xs) => xs
          | _ => []
        lastTranscriptAtMs := finiteNum (data.get "last_transcript_at_ms")
        lastErrorAtMs := finiteNum (data.get "last_error_at_ms")
        lastError :=
          match data.get "last_error" with
          | some (.str s) => some s
          | _ => none
        hotkeys :=
          match data.get "hotkeys" with
          | some h => if truthy (some h) && typeofObject h then h else .obj []
          | none => .obj [] }

/-! ### ChangeWatcher: `_watchState` + `_scheduleLoadOverlay` / `_scheduleLoadTray`

A filesystem notification carries up to two basenames (`file` and
`otherFile`).  Each logical file has one pending one-shot reload timer; a
notification for a file whose timer is already pending is ignored
(`if (this._loadOverlayTimerId) return;`).  Events are processed in
chronological order; a timer whose fire time is at or before the incoming
event's time has already fired on the main loop. -/

/-- Which logical file a reload is for. -/
inductive ReloadKind where
  | overlay
  | tray
deriving DecidableEq

/-- A directory-change notification: its arrival time and the basenames it
reports (`file` and, when present, `otherFile`). -/
structure WatchEvent where
  time : ℚ
  basenames : List String

/-- The two pending debounce timers (`_loadOverlayTimerId`,
`_loadTrayTimerId`), each holding its scheduled fire time. -/
structure WatchState where
  pendingOverlay : Option ℚ
  pendingTray : Option ℚ

/-- Basename match for the overlay document (final name or temp name). -/
def matchesOverlay (basenames : List String) : Bool :=
  basenames.any fun n => n == STATE_FILE || n == STATE_TMP_FILE

/-- Basename match for the tray document (final name or temp name). -/
def matchesTray (basenames : List String) : Bool :=
  basenames.any fun n => n == TRAY_FILE || n == TRAY_TMP_FILE

/-- One logical file's reaction to an event at time `t`: first the pending
timer fires if due (`f ≤ t`), then — exactly `_scheduleLoadOverlay` /
`_scheduleLoadTray` — a matching notification arms a fresh timer only when
none is pending, and is otherwise ignored.  Returns the new pending timer
and the fire times recorded (zero or one). -/
def debStep (delay : ℚ) (p : Option ℚ) (t : ℚ) (matched : Bool) :
    Option ℚ × List ℚ :=
  let fired : Option ℚ × List ℚ :=
    match p with
    | some f => if f ≤ t then (none, [f]) else (some f, [])
    | none => (none, [])
  let armed : Option ℚ :=
    if matched then
      match fired.1 with
      | none => some (t + delay)
      | some f => some f
    else fired.1
  (armed, fired.2)

/-- The `changed` handler of `_watchState` (lines 259–273) acting on both
timers: each event is matched independently against the overlay and tray
names, with the two debounce timers evolving independently. -/
def stepWatch (s : WatchState) (e : WatchEvent) :
    WatchState × List (ℚ × ReloadKind) :=
  let o := debStep OVERLAY_DEBOUNCE_MS s.pendingOverlay e.time (matchesOverlay e.basenames)
  let t := debStep TRAY_DEBOUNCE_MS s.pendingTray e.time (matchesTray e.basenames)
  (⟨o.1, t.1⟩, o.2.map (fun f => (f, ReloadKind.overlay)) ++ t.2.map (fun f => (f, ReloadKind.tray)))

/-- After the last notification, any still-pending timer eventually fires. -/
def watchFlush (s : WatchState) : List (ℚ × ReloadKind) :=
  s.pendingOverlay.toList.map (fun f => (f, ReloadKind.overlay)) ++
    s.pendingTray.toList.map (fun f => (f, ReloadKind.tray))

/-- Process a chronological list of notifications from state `s` and
return every reload performed, tagged with its fire time and file. -/
def watchRun (s : WatchState) : List WatchEvent → List (ℚ × ReloadKind)
  | [] => watchFlush s
  | e :: rest =>
      let st := stepWatch s e
      st.2 ++ watchRun st.1 rest

/-- Single-file run of the debounce machine over `(time, matched)` pairs,
flushing the pending timer at the end. -/
def debRun (delay : ℚ) (p : Option ℚ) : List (ℚ × Bool) → List ℚ
  | [] => p.toList
  | e :: rest =>
      let st := debStep delay p e.1 e.2
      st.2 ++ debRun delay st.1 rest

/-- The delay of the debounce timer of each logical file. -/
def kindDelay : ReloadKind → ℚ
  | .overlay => OVERLAY_DEBOUNCE_MS
  | .tray => TRAY_DEBOUNCE_MS

/-- The basename matcher of each logical file. -/
def kindMatches : ReloadKind → List String → Bool
  | .overlay => matchesOverlay
  | .tray => matchesTray

/-- The pending timer of each logical file. -/
def kindPending : ReloadKind → WatchState → Option ℚ
  | .overlay, s => s.pendingOverlay
  | .tray, s => s.pendingTray

/-- Select the reloads of one logical file from a tagged reload list. -/
def kindProj (k : ReloadKind) (x : ℚ × ReloadKind) : Option ℚ :=
  if x.2 = k then some x.1 else none

/-! ### ClickDisambiguator: `_handlePrimaryClick` -/

/-- The two actions the primary button can trigger. -/
inductive ClickAction where
  | toggle
  | openApp
deriving DecidableEq

/-- One primary-button press at time `t` with pending click timer `p`
(`_clickTimerId`, holding its scheduled fire time).  A due timer
(`f ≤ t`) has already fired on the main loop, performing the toggle and
clearing the id, before the press is handled; `_handlePrimaryClick` then
either cancels a still-pending timer and opens the app, or arms a new
timer for `DOUBLE_CLICK_MS`. -/
def clickPress (p : Option ℚ) (t : ℚ) : Option ℚ × List (ℚ × ClickAction) :=
  match p with
  | some f =>
      if f ≤ t then (some (t + DOUBLE_CLICK_MS), [(f, .toggle)])
      else (none, [(t, .openApp)])
  | none => (some (t + DOUBLE_CLICK_MS), [])

/-- Process a chronological list of press times, returning the final
pending timer and the actions performed so far. -/
def clickProcess (p : Option ℚ) : List ℚ → Option ℚ × List (ℚ × ClickAction)
  | [] => (p, [])
  | t :: rest =>
      let st := clickPress p t
      let r := clickProcess st.1 rest
      (r.1, st.2 ++ r.2)

/-- Let a still-pending click timer elapse: its callback nulls
`_clickTimerId` and performs the toggle (lines 510–514).  Returns all
actions and the final (always empty) pending state. -/
def clickFinish (st : Option ℚ × List (ℚ × ClickAction)) :
    List (ℚ × ClickAction) × Option ℚ :=
  match st.1 with
  | some f => (st.2 ++ [(f, .toggle)], none)
  | none => (st.2, none)

/-! ### PresentationStateMachine: `_updateIndicator` / `_scheduleStatusRefresh` -/

/-- The indicator's derived visual state. -/
inductive VisualState where
  | Idle
  | Recording
  | SuccessFlash
  | ErrorFlash
deriving DecidableEq

/-- The guard `ts && now - ts < windowMs` of `_updateIndicator`
(JavaScript truthiness on the timestamp, then the window comparison). -/
def flashActive (ts : Option ℚ) (windowMs now : ℚ) : Bool :=
  match ts with
  | none => false
  | some t => (t != 0) && decide (now - t < windowMs)

/-- The visual state chosen by `_updateIndicator` (lines 452–481) from the
cached fields and the wall clock. -/
def updateIndicator (recording : Bool) (lastErrorAtMs lastTranscriptAtMs : Option ℚ)
    (now : ℚ) : VisualState :=
  if recording then .Recording
  else if flashActive lastErrorAtMs ERROR_FLASH_MS now then .ErrorFlash
  else if flashActive lastTranscriptAtMs SUCCESS_FLASH_MS now then .SuccessFlash
  else .Idle

/-- The delay for which `_scheduleStatusRefresh` (lines 524–539) arms the
one-shot status timer, or `none` when it arms nothing.  Note the delay is
computed from `lastErrorAtMs` whenever that timestamp is truthy, even if
its flash window has already expired. -/
def scheduleStatusRefresh (lastErrorAtMs lastTranscriptAtMs : Option ℚ)
    (now : ℚ) : Option ℚ :=
  let nextDelay : Option ℚ :=
    if truthyNum lastErrorAtMs then
      match lastErrorAtMs with
      | some e => some (ERROR_FLASH_MS - (now - e))
      | none => none
    else if truthyNum lastTranscriptAtMs then
      match lastTranscriptAtMs with
      | some t => some (SUCCESS_FLASH_MS - (now - t))
      | none => none
    else none
  match nextDelay with
  | none => none
  | some d => if d ≤ 0 then none else some d

/-! ### LevelAnimator: `_startMeter` tick, `_hideOverlay`, `_stopMeter` -/

/-- `Math.round`, which is `⌊x + 1/2⌋` for every JavaScript number. -/
def jsRound (q : ℚ) : ℤ := ⌊q + 1 / 2⌋

/-- One smoothing step of the meter tick (lines 403–405):
`delta = target - level`, gain `0.45` when rising and `0.2` otherwise. -/
def meterStep (target level : ℚ) : ℚ :=
  let delta := target - level
  let smoothing : ℚ := if delta > 0 then 0.45 else 0.2
  level + delta * smoothing

/-- The bar heights written by one meter tick from the clamped smoothed
level `c` (lines 408–412):
`Math.round(BAR_MIN_HEIGHT + (BAR_MAX_HEIGHT - BAR_MIN_HEIGHT) * c * weight)`
per bar (there are `BAR_COUNT` bars and `BAR_WEIGHTS` has that length, so
`index % BAR_WEIGHTS.length` enumerates the weights in order). -/
def barsFor (c : ℚ) : List ℤ :=
  BAR_WEIGHTS.map fun w =>
    jsRound ((BAR_MIN_HEIGHT : ℚ) + ((BAR_MAX_HEIGHT : ℚ) - (BAR_MIN_HEIGHT : ℚ)) * c * w)

/-- The mutable fields of the extension relevant to the overlay, meter and
clock. -/
structure OverlayUI where
  recording : Bool
  startedAtMs : Option ℚ
  level : ℚ
  levelTarget : ℚ
  meterRunning : Bool
  clockRunning : Bool
  bars : List ℤ
  overlayVisible : Bool
  timeVisible : Bool
deriving DecidableEq

/-- `_stopMeter`: removes the meter tick source. -/
def stopMeter (s : OverlayUI) : OverlayUI := { s with meterRunning := false }

/-- `_startMeter`'s arming part: adds the 150 ms tick source if absent. -/
def startMeter (s : OverlayUI) : OverlayUI := { s with meterRunning := true }

/-- `_stopClock`: removes the 1 s clock source. -/
def stopClock (s : OverlayUI) : OverlayUI := { s with clockRunning := false }

/-- The body of the meter tick callback (lines 403–412): smooth the level
toward `_levelTarget`, clamp, and rewrite every bar height. -/
def meterTickBody (s : OverlayUI) : OverlayUI :=
  let l := meterStep s.levelTarget s.level
  { s with level := l, bars := barsFor (clamp01 l) }

/-- `_hideOverlay` (lines 373–384): clear the recording fields, zero the
level and its target, hide the overlay, stop meter and clock.  Bar heights
are not touched. -/
def hideOverlay (s : OverlayUI) : OverlayUI :=
  stopClock (stopMeter
    { s with recording := false, startedAtMs := none, timeVisible := false
             level := 0, levelTarget := 0, overlayVisible := false })

/-! ## Helper lemmas on the debounce machine -/

/-- A run from the empty pending state over unmatched notifications
performs no reload. -/
lemma debRun_all_unmatched (delay : ℚ) (es : List (ℚ × Bool))
    (h : ∀ e ∈ es, e.2 = false) : debRun delay none es = [] := by
  induction es with
  | nil => rfl
  | cons e rest ih =>
      have he : e.2 = false := h e (List.mem_cons_self e rest)
      simp only [debRun, debStep, he]
      exact ih fun x hx => h x (List.mem_cons_of_mem e hx)

/-- Unmatched notifications before the first matching one change nothing. -/
lemma debRun_unmatched_prefix (delay : ℚ) (pre rest : List (ℚ × Bool))
    (h : ∀ e ∈ pre, e.2 = false) :
    debRun delay none (pre ++ rest) = debRun delay none rest := by
  induction pre with
  | nil => rfl
  | cons e p ih =>
      have he : e.2 = false := h e (List.mem_cons_self e p)
      simp only [List.cons_append, debRun, debStep, he]
      exact ih fun x hx => h x (List.mem_cons_of_mem e hx)

/-- Once the timer is armed for fire time `f`, a chronological sequence of
further notifications in which every matching one arrives before `f`
produces exactly the one reload at `f`. -/
lemma debRun_armed_burst (delay : ℚ) (f : ℚ) (es : List (ℚ × Bool))
    (hs : es.Pairwise fun a b => a.1 ≤ b.1)
    (h : ∀ e ∈ es, e.2 = true → e.1 < f) :
    debRun delay (some f) es = [f] := by
  induction es with
  | nil => rfl
  | cons e rest ih =>
      obtain ⟨hhead, htail⟩ := List.pairwise_cons.mp hs
      rcases le_or_lt f e.1 with hf | hf
      · have hm : e.2 = false := by
          cases hm2 : e.2
          · rfl
          · exact absurd (h e (List.mem_cons_self e rest) hm2) (not_lt.mpr hf)
        have hrest : ∀ x ∈ rest, x.2 = false := by
          intro x hx
          cases hm2 : x.2
          · rfl
          · have hlt := h x (List.mem_cons_of_mem e hx) hm2
            exact absurd hlt (not_lt.mpr (le_trans hf (hhead x hx)))
        simp only [debRun, debStep, hm, if_pos hf]
        simp [debRun_all_unmatched delay rest hrest]
      · have hstep : debStep delay (some f) e.1 e.2 = (some f, []) := by
          cases hm2 : e.2 <;> simp [debStep, not_le.mpr hf]
        simp only [debRun, hstep, List.nil_append]
        exact ih htail fun x hx hm => h x (List.mem_cons_of_mem e hx) hm

/-- The per-file pending timer evolves under `stepWatch` exactly as the
single-file machine does. -/
lemma stepWatch_pending (k : ReloadKind) (s : WatchState) (e : WatchEvent) :
    kindPending k (stepWatch s e).1 =
      (debStep (kindDelay k) (kindPending k s) e.time (kindMatches k e.basenames)).1 := by
  cases k <;> rfl

/-- Selecting a file's reloads from fires tagged with that same file keeps
them all. -/
lemma filterMap_tag_same (k : ReloadKind) (xs : List ℚ) :
    xs.filterMap (kindProj k ∘ fun f => (f, k)) = xs := by
  induction xs with
  | nil => rfl
  | cons x xs ih => simp [kindProj, ih]

/-- Selecting a file's reloads from fires tagged with the other file drops
them all. -/
lemma filterMap_tag_other (k k2 : ReloadKind) (hk : k2 ≠ k) (xs : List ℚ) :
    xs.filterMap (kindProj k ∘ fun f => (f, k2)) = [] := by
  induction xs with
  | nil => rfl
  | cons x xs ih => simp [kindProj, hk, ih]

/-- The reloads of one file recorded by `stepWatch` are exactly the fires
of that file's single-file machine. -/
lemma stepWatch_fires (k : ReloadKind) (s : WatchState) (e : WatchEvent) :
    (stepWatch s e).2.filterMap (kindProj k) =
      (debStep (kindDelay k) (kindPending k s) e.time (kindMatches k e.basenames)).2 := by
  cases k <;>
    simp [stepWatch, kindPending, kindDelay, kindMatches, List.filterMap_append,
      filterMap_tag_same, filterMap_tag_other]

/-- Projecting a combined run onto one logical file gives a single-file
debounce run over that file's view of the events: the two files' timers
are independent. -/
lemma watchRun_proj (k : ReloadKind) (s : WatchState) (es : List WatchEvent) :
    (watchRun s es).filterMap (kindProj k) =
      debRun (kindDelay k) (kindPending k s)
        (es.map fun e => (e.time, kindMatches k e.basenames)) := by
  induction es generalizing s with
  | nil =>
      cases k <;> cases ho : s.pendingOverlay <;> cases ht : s.pendingTray <;>
        simp [watchRun, watchFlush, debRun, kindPending, kindProj, ho, ht]
  | cons e rest ih =>
      simp only [watchRun, List.map_cons, debRun, List.filterMap_append]
      rw [stepWatch_fires, ih, stepWatch_pending]

/-! ## Helper lemmas on the meter smoothing step -/

/-- Unfolded form of the smoothing step. -/
lemma meterStep_eq (target level : ℚ) :
    meterStep target level =
      level + (target - level) * (if 0 < target - level then 0.45 else 0.2) := rfl

/-- Rising tick: the error shrinks by the factor `1 - 0.45`. -/
lemma meterStep_error_rising (target level : ℚ) (h : level < target) :
    target - meterStep target level = (target - level) * 0.55 := by
  have hd : target - level > 0 := sub_pos.mpr h
  simp only [meterStep, if_pos hd]
  ring

/-- Falling (or level) tick: the error shrinks by the factor `1 - 0.2`. -/
lemma meterStep_error_falling (target level : ℚ) (h : ¬ target - level > 0) :
    target - meterStep target level = (target - level) * 0.8 := by
  simp only [meterStep, if_neg h]
  ring

/-- Every tick contracts the error by at least the release factor. -/
lemma meterStep_error_contraction (target level : ℚ) :
    |target - meterStep target level| ≤ 4 / 5 * |target - level| := by
  by_cases hd : target - level > 0
  · rw [meterStep_error_rising target level (by linarith), abs_mul]
    have h1 : |target - level| ≥ 0 := abs_nonneg _
    have h2 : |(0.55 : ℚ)| = 0.55 := by norm_num [abs_of_pos]
    rw [h2]
    nlinarith
  · rw [meterStep_error_falling target level hd, abs_mul]
    have h2 : |(0.8 : ℚ)| = 0.8 := by norm_num [abs_of_pos]
    rw [h2]
    nlinarith [abs_nonneg (target - level)]

/-- Iterating the tick contracts the error geometrically. -/
lemma meterStep_iterate_bound (target level : ℚ) (n : ℕ) :
    |target - (meterStep target)^[n] level| ≤ (4 / 5) ^ n * |target - level| := by
  induction n with
  | zero => simp
  | succ n ih =>
      rw [Function.iterate_succ_apply']
      calc |target - meterStep target ((meterStep target)^[n] level)|
          ≤ 4 / 5 * |target - (meterStep target)^[n] level| :=
            meterStep_error_contraction target _
        _ ≤ 4 / 5 * ((4 / 5) ^ n * |target - level|) := by linarith
        _ = (4 / 5) ^ (n + 1) * |target - level| := by ring

/-! ## Claim theorems -/

/-- C1 (counterexample): the claim says a non-finite numeric field is a
parse failure making the load return the full empty/default state.  But
for the document `{"recording": true, "level": 1e999}` (whose `level`
parses to `Infinity`), only the `level` field is defaulted: the load
returns `recording = true`, not the default state. -/
theorem load_nonfinite_field_not_full_default :
    parseOverlay (some (.obj [("recording", .bool true), ("level", .num .inf)])) ≠
      defaultOverlayState ∧
    (parseOverlay (some (.obj [("recording", .bool true), ("level", .num .inf)]))).recording
      = true ∧
    (parseOverlay (some (.obj [("recording", .bool true), ("level", .num .inf)]))).level = 0 :=
  ⟨by decide, by decide, by decide⟩

/-- C1 (amended): on any read or parse failure that raises (missing file,
invalid encoding, malformed JSON) both loads return their defined
empty/default state and never raise; a non-finite numeric field alone is
not such a failure — that field is treated as absent (its default is used)
while the rest of the document, including `recording`, is parsed
normally. -/
theorem load_failure_defaults :
    parseOverlay none = defaultOverlayState ∧
    parseTray none = defaultTrayState ∧
    ∀ j : Json, finiteNum (j.get "level") = none →
      (parseOverlay (some j)).level = 0 ∧
      (parseOverlay (some j)).recording = truthy (j.get "recording") ∧
      (parseOverlay (some j)).startedAtMs = finiteNum (j.get "started_at_ms") ∧
      (parseOverlay (some j)).updatedAtMs = finiteNum (j.get "updated_at_ms") := by
  refine ⟨rfl, rfl, fun j h => ?_⟩
  refine ⟨?_, rfl, rfl, rfl⟩
  simp [parseOverlay, h]

/-- C1 (witness): the amended theorem applied to a document whose `level`
is `NaN`. -/
theorem load_failure_defaults_witness :
    (parseOverlay (some (.obj [("level", .num .nan)]))).level = 0 :=
  (load_failure_defaults.2.2 (.obj [("level", .num .nan)]) rfl).1

/-- C2 (counterexample): the claim says every recording state with a
present `updatedAtMs` older than the threshold is normalized to idle.  But
`updatedAtMs = 0` is falsy in JavaScript, so the guard
`recording && updatedAtMs && now - updatedAtMs > STALE_STATE_MS` skips the
normalization: at `now = 6000` the age `6000 - 0` exceeds the threshold,
yet the state stays `recording = true`. -/
theorem stale_zero_timestamp_not_normalized :
    (6000 : ℚ) - 0 > STALE_STATE_MS ∧
    normalizeOverlay 6000 ⟨true, some 30, 1 / 2, some 0⟩ =
      ⟨true, some 30, 1 / 2, some 0⟩ := by
  constructor
  · norm_num [STALE_STATE_MS]
  · norm_num [normalizeOverlay, STALE_STATE_MS]

/-- C2 (amended): for a parsed recording document with a present *nonzero*
`updatedAtMs`, if `now - updatedAtMs` exceeds the 5000 ms staleness
threshold the state is normalized to idle (recording false, no start time,
zero level, timestamp kept); when the age is at most the threshold —
including exactly at it — the state is kept unchanged.  A zero
`updatedAtMs` is falsy and is never normalized. -/
theorem stale_normalization_boundary (now : ℚ) (s : OverlayState) (u : ℚ)
    (hu : s.updatedAtMs = some u) (hnz : u ≠ 0) (hrec : s.recording = true) :
    (STALE_STATE_MS < now - u →
      normalizeOverlay now s =
        { s with recording := false, startedAtMs := none, level := 0 }) ∧
    (now - u ≤ STALE_STATE_MS → normalizeOverlay now s = s) := by
  constructor
  · intro h
    have hcond : s.recording = true ∧ u ≠ 0 ∧ now - u > STALE_STATE_MS := ⟨hrec, hnz, h⟩
    simp [normalizeOverlay, hu, hcond]
  · intro h
    have hcond : ¬ (s.recording = true ∧ u ≠ 0 ∧ now - u > STALE_STATE_MS) := by
      rintro ⟨-, -, hgt⟩
      exact absurd hgt (not_lt.mpr h)
    simp [normalizeOverlay, hu, hcond]

/-- C2 (witness): the amended theorem applied at `now = 11000`,
`updatedAtMs = 1000` (stale) and at `now = 6000`, `updatedAtMs = 1000`
(exactly at the threshold, kept). -/
theorem stale_normalization_boundary_witness :
    normalizeOverlay 11000 ⟨true, some 7, 1, some 1000⟩ =
      { recording := false, startedAtMs := none, level := 0, updatedAtMs := some 1000 } ∧
    normalizeOverlay 6000 ⟨true, some 7, 1, some 1000⟩ = ⟨true, some 7, 1, some 1000⟩ :=
  ⟨(stale_normalization_boundary 11000 ⟨true, some 7, 1, some 1000⟩ 1000 rfl
      (by norm_num) rfl).1 (by norm_num [STALE_STATE_MS]),
   (stale_normalization_boundary 6000 ⟨true, some 7, 1, some 1000⟩ 1000 rfl
      (by norm_num) rfl).2 (by norm_num [STALE_STATE_MS])⟩

/-- C3 (counterexample): the claim says a document with `recording = true`
and an absent `updated_at_ms` is treated as not recording.  But the guard
requires a truthy `updatedAtMs` to normalize, so such a document is loaded
with `recording = true` (here at wall-clock time `1000000`). -/
theorem recording_absent_timestamp_honored :
    (loadOverlayState 1000000 (some (.obj [("recording", .bool true)]))).recording = true ∧
    (loadOverlayState 1000000 (some (.obj [("recording", .bool true)]))).updatedAtMs = none :=
  ⟨by decide, by decide⟩

/-- C3 (amended): a loaded document with `recording = true` is demoted to
not recording exactly when `updated_at_ms` is present (finite), nonzero
and older than the staleness threshold; when the field is absent or
non-finite (hence parsed as absent), the `recording` value of the document
is honored as-is. -/
theorem recording_stale_only_when_present_nonzero (now : ℚ) (j : Json) :
    (finiteNum (j.get "updated_at_ms") = none →
      (loadOverlayState now (some j)).recording = truthy (j.get "recording")) ∧
    (∀ u : ℚ, finiteNum (j.get "updated_at_ms") = some u → u ≠ 0 →
      STALE_STATE_MS < now - u → truthy (j.get "recording") = true →
      loadOverlayState now (some j) =
        { recording := false, startedAtMs := none, level := 0, updatedAtMs := some u }) := by
  constructor
  · intro h
    simp [loadOverlayState, parseOverlay, normalizeOverlay, h]
  · intro u hu hnz hst hrec
    have hcond : truthy (j.get "recording") = true ∧ u ≠ 0 ∧ now - u > STALE_STATE_MS :=
      ⟨hrec, hnz, hst⟩
    simp [loadOverlayState, parseOverlay, normalizeOverlay, hu, hcond]

/-- C3 (witness): the amended theorem applied to a document with a stale
nonzero timestamp, and to one with a string timestamp (non-finite, parsed
as absent). -/
theorem recording_stale_only_when_present_nonzero_witness :
    loadOverlayState 99999 (some (.obj [("recording", .bool true), ("updated_at_ms", .num (.fin 10))])) =
      { recording := false, startedAtMs := none, level := 0, updatedAtMs := some 10 } ∧
    (loadOverlayState 99999 (some (.obj [("recording", .bool true), ("updated_at_ms", .str "later")]))).recording =
      truthy ((Json.obj [("recording", .bool true), ("updated_at_ms", .str "later")]).get "recording") :=
  ⟨(recording_stale_only_when_present_nonzero 99999
      (.obj [("recording", .bool true), ("updated_at_ms", .num (.fin 10))])).2 10 rfl
      (by norm_num) (by norm_num [STALE_STATE_MS]) rfl,
   (recording_stale_only_when_present_nonzero 99999
      (.obj [("recording", .bool true), ("updated_at_ms", .str "later")])).1 rfl⟩

/-- C4 (counterexample): the claim says the debounce timer is (re)armed on
each relevant event and fires only once, after the burst quiets.  But a
notification arriving while the timer is pending is ignored
(`if (this._loadOverlayTimerId) return;`): after overlay notifications at
0 ms and 50 ms the timer still holds fire time 60, not 50 + 60; and for
the burst 0, 50, 100 — every consecutive gap inside the 60 ms window — two
reloads are performed (at 60 and 160), the first firing in mid-burst. -/
theorem watch_timer_not_rearmed :
    (stepWatch (stepWatch ⟨none, none⟩ ⟨0, [STATE_FILE]⟩).1 ⟨50, [STATE_FILE]⟩).1.pendingOverlay
      = some 60 ∧
    ((60 : ℚ) ≠ 50 + OVERLAY_DEBOUNCE_MS) ∧
    (watchRun ⟨none, none⟩
        [⟨0, [STATE_FILE]⟩, ⟨50, [STATE_FILE]⟩, ⟨100, [STATE_FILE]⟩]).filterMap
      (kindProj .overlay) = [60, 160] ∧
    ((50 : ℚ) - 0 < OVERLAY_DEBOUNCE_MS ∧ (100 : ℚ) - 50 < OVERLAY_DEBOUNCE_MS) := by
  refine ⟨?_, ?_, ?_, ?_⟩
  · norm_num [stepWatch, debStep, matchesOverlay, matchesTray, STATE_FILE, STATE_TMP_FILE,
      TRAY_FILE, TRAY_TMP_FILE, OVERLAY_DEBOUNCE_MS, TRAY_DEBOUNCE_MS]
  · norm_num [OVERLAY_DEBOUNCE_MS]
  · norm_num [watchRun, stepWatch, debStep, watchFlush, matchesOverlay, matchesTray,
      STATE_FILE, STATE_TMP_FILE, TRAY_FILE, TRAY_TMP_FILE, OVERLAY_DEBOUNCE_MS,
      TRAY_DEBOUNCE_MS, kindProj, List.filterMap]
  · norm_num [OVERLAY_DEBOUNCE_MS]

/-- C4 (amended): for any chronological burst of notifications in which
the matching notifications for one logical file (by final or temp name)
are nonempty and all arrive within that file's debounce delay after the
first matching one, exactly one reload of that file is performed, at the
fixed delay after the first matching notification: the timer is armed by
the first matching notification and later notifications are ignored while
it is pending (not re-armed).  The other file's notifications, interleaved
arbitrarily, do not affect this (two independent timers). -/
theorem watch_burst_single_reload (k : ReloadKind) (es pre post : List WatchEvent)
    (e0 : WatchEvent)
    (hsplit : es = pre ++ e0 :: post)
    (hsorted : es.Pairwise fun a b => a.time ≤ b.time)
    (hpre : ∀ e ∈ pre, kindMatches k e.basenames = false)
    (he0 : kindMatches k e0.basenames = true)
    (hpost : ∀ e ∈ post, kindMatches k e.basenames = true →
      e.time < e0.time + kindDelay k) :
    (watchRun ⟨none, none⟩ es).filterMap (kindProj k) = [e0.time + kindDelay k] := by
  subst hsplit
  rw [watchRun_proj]
  have hinit : kindPending k ⟨none, none⟩ = none := by cases k <;> rfl
  rw [hinit, List.map_append, List.map_cons,
    debRun_unmatched_prefix _ _ _ (by
      intro x hx
      obtain ⟨e, he, hx2⟩ := List.mem_map.mp hx
      rw [← hx2]
      exact hpre e he)]
  rw [he0]
  have hstep : debStep (kindDelay k) none e0.time true =
      (some (e0.time + kindDelay k), []) := by simp [debStep]
  simp only [debRun, hstep, List.nil_append]
  refine debRun_armed_burst _ _ _ ?_ ?_
  · have hp : post.Pairwise fun a b => a.time ≤ b.time :=
      (List.pairwise_cons.mp (List.pairwise_append.mp hsorted).2.1).2
    exact hp.map _ fun a b h => h
  · intro x hx hm
    obtain ⟨e, he, hx2⟩ := List.mem_map.mp hx
    rw [← hx2] at hm ⊢
    exact hpost e he hm

/-- C4 (witness): the amended theorem applied to a burst of three overlay
notifications (temp-name write, final-name rename, and another change)
within the 60 ms window, with a tray notification interleaved: exactly one
overlay reload, at 60 ms after the first. -/
theorem watch_burst_single_reload_witness :
    (watchRun ⟨none, none⟩
        [⟨0, [STATE_TMP_FILE]⟩, ⟨5, [STATE_TMP_FILE, STATE_FILE]⟩, ⟨20, [TRAY_FILE]⟩,
          ⟨30, [STATE_FILE]⟩]).filterMap (kindProj .overlay) = [0 + OVERLAY_DEBOUNCE_MS] :=
  watch_burst_single_reload .overlay _ [] [⟨5, [STATE_TMP_FILE, STATE_FILE]⟩, ⟨20, [TRAY_FILE]⟩,
      ⟨30, [STATE_FILE]⟩] ⟨0, [STATE_TMP_FILE]⟩ rfl
    (by norm_num)
    (by intro e he; simp at he)
    (by decide)
    (by
      intro e he hm
      fin_cases he <;> norm_num [kindDelay, OVERLAY_DEBOUNCE_MS])

/-- C5: a lone primary press with no second press in the click window
performs the toggle action exactly once, when the 220 ms window elapses,
leaving no pending state; a second press within the window cancels the
timer and performs the open-app action exactly once (no toggle), leaving
no pending state. -/
theorem click_disambiguation (t1 t2 : ℚ) :
    clickFinish (clickProcess none [t1]) = ([(t1 + DOUBLE_CLICK_MS, .toggle)], none) ∧
    (t1 ≤ t2 → t2 - t1 < DOUBLE_CLICK_MS →
      clickProcess none [t1, t2] = (none, [(t2, .openApp)]) ∧
      clickFinish (clickProcess none [t1, t2]) = ([(t2, .openApp)], none)) := by
  constructor
  · rfl
  · intro h12 hwin
    have hnle : ¬ (t1 + DOUBLE_CLICK_MS ≤ t2) := by
      intro hle
      linarith
    constructor <;> simp [clickProcess, clickPress, clickFinish, hnle]

/-- C5 (witness): the theorem applied to a lone press at 0 ms and a double
press at 0 ms and 100 ms. -/
theorem click_disambiguation_witness :
    clickFinish (clickProcess none [(0 : ℚ)]) = ([(0 + DOUBLE_CLICK_MS, .toggle)], none) ∧
    clickProcess none [(0 : ℚ), 100] = (none, [(100, .openApp)]) :=
  ⟨(click_disambiguation 0 100).1,
   ((click_disambiguation 0 100).2 (by norm_num) (by norm_num [DOUBLE_CLICK_MS])).1⟩

/-- C6 (counterexample): the claim says ErrorFlash is shown whenever
`lastErrorAtMs` is within the error window, even if `lastTranscriptAtMs`
is within the success window.  But a zero error timestamp is falsy in the
guard `this._lastErrorAtMs && ...`, so at `now = 1000` with
`lastErrorAtMs = 0` (within its window, `1000 - 0 < 4000`) and
`lastTranscriptAtMs = 500` (within its window), SuccessFlash is shown. -/
theorem indicator_zero_error_timestamp :
    ((1000 : ℚ) - 0 < ERROR_FLASH_MS) ∧
    ((1000 : ℚ) - 500 < SUCCESS_FLASH_MS) ∧
    updateIndicator false (some 0) (some 500) 1000 = .SuccessFlash := by
  refine ⟨by norm_num [ERROR_FLASH_MS], by norm_num [SUCCESS_FLASH_MS], ?_⟩
  norm_num [updateIndicator, flashActive, ERROR_FLASH_MS, SUCCESS_FLASH_MS]

/-- C6 (amended): the recomputed visual state obeys the precedence
recording > error-flash > success-flash > idle, where a flash timestamp
counts only when it is truthy (present and nonzero): recording always
wins; otherwise a truthy `lastErrorAtMs` within the 4000 ms error window
yields ErrorFlash regardless of `lastTranscriptAtMs`; otherwise a truthy
`lastTranscriptAtMs` within the 3000 ms success window yields
SuccessFlash; otherwise Idle. -/
theorem indicator_precedence (e s : Option ℚ) (now : ℚ) :
    updateIndicator true e s now = .Recording ∧
    (∀ ev : ℚ, e = some ev → ev ≠ 0 → now - ev < ERROR_FLASH_MS →
      updateIndicator false e s now = .ErrorFlash) ∧
    (flashActive e ERROR_FLASH_MS now = false →
      ∀ sv : ℚ, s = some sv → sv ≠ 0 → now - sv < SUCCESS_FLASH_MS →
        updateIndicator false e s now = .SuccessFlash) ∧
    (flashActive e ERROR_FLASH_MS now = false →
      flashActive s SUCCESS_FLASH_MS now = false →
      updateIndicator false e s now = .Idle) := by
  refine ⟨rfl, ?_, ?_, ?_⟩
  · intro ev he hnz hwin
    have hf : flashActive e ERROR_FLASH_MS now = true := by
      simp [flashActive, he, hnz, hwin]
    simp [updateIndicator, hf]
  · intro hne sv hs hnz hwin
    have hf : flashActive s SUCCESS_FLASH_MS now = true := by
      simp [flashActive, hs, hnz, hwin]
    simp [updateIndicator, hne, hf]
  · intro hne hns
    simp [updateIndicator, hne, hns]

/-- C6 (witness): the amended theorem applied at `now = 1000` with an
error at 100 ms and a success at 900 ms — both windows active, error
wins — and with only the success active. -/
theorem indicator_precedence_witness :
    updateIndicator false (some 100) (some 900) 1000 = .ErrorFlash ∧
    updateIndicator false none (some 900) 1000 = .SuccessFlash :=
  ⟨(indicator_precedence (some 100) (some 900) 1000).2.1 100 rfl (by norm_num)
      (by norm_num [ERROR_FLASH_MS]),
   (indicator_precedence none (some 900) 1000).2.2.1 rfl 900 rfl (by norm_num)
      (by norm_num [SUCCESS_FLASH_MS])⟩

/-- C7: with `recording = false`, an expired error timestamp
(`lastErrorAtMs = 1000` at `now = 10000`, older than the 4000 ms window)
and a success timestamp still inside its window
(`lastTranscriptAtMs = 9000`, 2000 ms of flash remaining), the indicator
shows SuccessFlash but `_scheduleStatusRefresh` computes its delay from
the expired error timestamp, obtains `4000 - 9000 ≤ 0`, and arms no timer
at all — instead of the 2000 ms the claim requires — so the success flash
persists until an unrelated reload. -/
theorem status_refresh_expired_error_bug :
    updateIndicator false (some 1000) (some 9000) 10000 = .SuccessFlash ∧
    scheduleStatusRefresh (some 1000) (some 9000) 10000 = none ∧
    SUCCESS_FLASH_MS - ((10000 : ℚ) - 9000) = 2000 ∧ (0 : ℚ) < 2000 := by
  refine ⟨?_, ?_, by norm_num [SUCCESS_FLASH_MS], by norm_num⟩
  · norm_num [updateIndicator, flashActive, ERROR_FLASH_MS, SUCCESS_FLASH_MS]
  · norm_num [scheduleStatusRefresh, truthyNum, ERROR_FLASH_MS, SUCCESS_FLASH_MS]

/-- C8: for a constant target level in `[0, 1]` and any smoothed level,
each meter tick moves the smoothed value by `(target - smoothed) * gain`
with gain `0.45` when rising and `0.2` when falling (`0.2 < 0.45`); each
tick strictly reduces the distance to the target without overshooting, the
distance decays at least geometrically over repeated ticks, and for
equal-magnitude deltas the rising step is strictly larger than the falling
step. -/
theorem meter_smoothing_convergence (target level : ℚ)
    (ht0 : 0 ≤ target) (ht1 : target ≤ 1) :
    (0 < target - level → meterStep target level = level + (target - level) * 0.45) ∧
    (target - level ≤ 0 → meterStep target level = level + (target - level) * 0.2) ∧
    ((0.2 : ℚ) < 0.45) ∧
    (level < target → level < meterStep target level ∧ meterStep target level < target) ∧
    (target < level → target < meterStep target level ∧ meterStep target level < level) ∧
    (level ≠ target → |target - meterStep target level| < |target - level|) ∧
    (∀ n : ℕ, |target - (meterStep target)^[n] level| ≤ (4 / 5) ^ n * |target - level|) ∧
    (∀ d : ℚ, 0 < d →
      meterStep (level + d) level - level = 0.45 * d ∧
      level - meterStep (level - d) level = 0.2 * d ∧
      0.2 * d < 0.45 * d) := by
  refine ⟨?_, ?_, by norm_num, ?_, ?_, ?_, meterStep_iterate_bound target level, ?_⟩
  · intro h
    rw [meterStep_eq, if_pos h]
  · intro h
    rw [meterStep_eq, if_neg (not_lt.mpr h)]
  · intro h
    have he := meterStep_error_rising target level h
    constructor <;> nlinarith [sub_pos.mpr h]
  · intro h
    have he := meterStep_error_falling target level (by intro hpos; linarith)
    constructor <;> nlinarith [sub_pos.mpr h]
  · intro h
    rcases lt_or_gt_of_ne h with hlt | hgt
    · have he := meterStep_error_rising target level hlt
      have hd : 0 < target - level := sub_pos.mpr hlt
      rw [he, abs_mul, abs_of_pos hd, abs_of_pos (by norm_num : (0:ℚ) < 0.55)]
      nlinarith
    · have he := meterStep_error_falling target level (by intro hpos; linarith)
      have hd : target - level < 0 := sub_neg.mpr hgt
      rw [he, abs_mul, abs_of_neg hd, abs_of_pos (by norm_num : (0:ℚ) < 0.8)]
      nlinarith
  · intro d hd
    have hr : (0 : ℚ) < level + d - level := by linarith
    have hf : ¬ ((0 : ℚ) < level - d - level) := by intro hcon; linarith
    refine ⟨?_, ?_, by nlinarith⟩
    · rw [meterStep_eq, if_pos hr]
      ring
    · rw [meterStep_eq, if_neg hf]
      ring

/-- C8 (witness): the theorem applied at `target = 1`, `level = 0`
(rising: one tick lands strictly between) and at the asymmetry part with
`d = 1`. -/
theorem meter_smoothing_convergence_witness :
    ((0 : ℚ) < meterStep 1 0 ∧ meterStep 1 0 < 1) ∧
    (meterStep ((0 : ℚ) + 1) 0 - 0 = 0.45 * 1 ∧
      (0 : ℚ) - meterStep (0 - 1) 0 = 0.2 * 1 ∧ (0.2 : ℚ) * 1 < 0.45 * 1) :=
  ⟨(meter_smoothing_convergence 1 0 (by norm_num) (by norm_num)).2.2.2.1 (by norm_num),
   (meter_smoothing_convergence 1 0 (by norm_num) (by norm_num)).2.2.2.2.2.2.2 1
      (by norm_num)⟩

/-- C9 (counterexample): the claim says that when recording ends every
bar's height is reset to the minimum.  But `_hideOverlay` never rewrites
bar heights: hiding from a state whose bars hold the heights of a full
level keeps those heights (16 is among them, not the minimum 10). -/
theorem hide_overlay_keeps_bar_heights :
    (hideOverlay ⟨true, some 0, 1, 1, true, true, barsFor 1, true, true⟩).bars = barsFor 1 ∧
    ¬ ∀ x ∈ (hideOverlay ⟨true, some 0, 1, 1, true, true, barsFor 1, true, true⟩).bars,
        x = BAR_MIN_HEIGHT := by
  have hb : barsFor 1 = [16, 19, 23, 26, 24, 24, 26, 23, 19, 16] := by
    norm_num [barsFor, BAR_WEIGHTS, jsRound, BAR_MIN_HEIGHT, BAR_MAX_HEIGHT]
  refine ⟨rfl, fun hall => ?_⟩
  have h16 : (16 : ℤ) ∈ (hideOverlay
      ⟨true, some 0, 1, 1, true, true, barsFor 1, true, true⟩).bars := by
    show (16 : ℤ) ∈ barsFor 1
    rw [hb]
    norm_num
  have := hall 16 h16
  norm_num [BAR_MIN_HEIGHT] at this

/-- C9 (amended): when a not-recording read hides the overlay, the meter
ticker (and clock) stop entirely and the smoothed level and its target are
reset to zero; bar heights are not rewritten — they retain their last
values while the overlay is hidden. -/
theorem hide_overlay_stops_meter (s : OverlayUI) :
    (hideOverlay s).meterRunning = false ∧
    (hideOverlay s).clockRunning = false ∧
    (hideOverlay s).level = 0 ∧
    (hideOverlay s).levelTarget = 0 ∧
    (hideOverlay s).bars = s.bars :=
  ⟨rfl, rfl, rfl, rfl, rfl⟩

/-- C10: every bar height written by a meter tick lies between
`BAR_MIN_HEIGHT` and `BAR_MAX_HEIGHT` inclusive, for any current smoothed
level and target: the smoothed level is clamped to `[0, 1]` before the
heights are computed and every bar weight lies in `[0, 1]`. -/
theorem bar_height_bounds (s : OverlayUI) (x : ℤ)
    (hx : x ∈ (meterTickBody s).bars) :
    BAR_MIN_HEIGHT ≤ x ∧ x ≤ BAR_MAX_HEIGHT := by
  have hx' : x ∈ barsFor (clamp01 (meterStep s.levelTarget s.level)) := hx
  rw [barsFor, List.mem_map] at hx'
  obtain ⟨w, hw, hxw⟩ := hx'
  set c := clamp01 (meterStep s.levelTarget s.level) with hc
  have hc0 : 0 ≤ c := le_max_left 0 _
  have hc1 : c ≤ 1 := max_le (by norm_num) (min_le_left 1 _)
  have hw01 : 0 ≤ w ∧ w ≤ 1 := by fin_cases hw <;> norm_num
  have hcw0 : 0 ≤ c * w := mul_nonneg hc0 hw01.1
  have hcw1 : c * w ≤ 1 := by nlinarith [mul_nonneg hc0 (sub_nonneg.mpr hw01.2)]
  rw [← hxw]
  constructor
  · rw [jsRound]
    rw [show BAR_MIN_HEIGHT = (10 : ℤ) from rfl]
    refine Int.le_floor.mpr ?_
    push_cast
    norm_num [BAR_MIN_HEIGHT, BAR_MAX_HEIGHT]
    nlinarith
  · have hlt : jsRound ((BAR_MIN_HEIGHT : ℚ) +
        ((BAR_MAX_HEIGHT : ℚ) - (BAR_MIN_HEIGHT : ℚ)) * c * w) < 27 := by
      rw [jsRound]
      refine Int.floor_lt.mpr ?_
      push_cast
      norm_num [BAR_MIN_HEIGHT, BAR_MAX_HEIGHT]
      nlinarith
    have h26 : BAR_MAX_HEIGHT = (26 : ℤ) := rfl
    omega

/-- C10 (witness): the theorem applied to a state at full level, where the
first bar height is 16. -/
theorem bar_height_bounds_witness :
    BAR_MIN_HEIGHT ≤ (16 : ℤ) ∧ (16 : ℤ) ≤ BAR_MAX_HEIGHT :=
  bar_height_bounds ⟨false, none, 1, 1, true, false, [], false, false⟩ 16
    (by norm_num [meterTickBody, meterStep, clamp01, barsFor, BAR_WEIGHTS, jsRound,
      BAR_MIN_HEIGHT, BAR_MAX_HEIGHT])

end Whispr
